import Mathlib

/-!
Verification of the telekommie git-hook policy layer.

Shallow embedding of the Python sources (`telekommie/git.py`,
`telekommie/hooks.py`, `telekommie/shell.py`).  The external
version-control tool is modelled as an oracle mapping an argument vector
to the raw standard output it would produce; a session (access object)
carries that oracle together with the lazily materialized environment
overlay.  Policy evaluation (`Hooks.update`) additionally returns the
trace of argument vectors it issued, so that claims about which commands
are (not) executed can be stated.
-/

/-- Python's whitespace set for `str.strip` (space, tab, newline,
carriage return, vertical tab, form feed). -/
def pyIsSpace (c : Char) : Bool :=
  c == ' ' || c == '\t' || c == '\n' || c == '\r' || c == '\x0b' || c == '\x0c'

/-- Python `str.strip()`: drop leading and trailing whitespace. -/
def pyStrip (s : String) : String :=
  ⟨((s.data.dropWhile pyIsSpace).reverse.dropWhile pyIsSpace).reverse⟩

/-- Python `s[:n]` character slicing. -/
def strTake (s : String) (n : Nat) : String :=
  ⟨s.data.take n⟩

/-- Python `str.split(sep)` for a one-character separator: splits at every
occurrence of `sep`; the empty list of characters yields `[[]]`, matching
`"".split(sep) == [""]`. -/
def splitOnChar (sep : Char) : List Char → List (List Char)
  | [] => [[]]
  | c :: cs =>
    match splitOnChar sep cs with
    | [] => [[c]]
    | r :: rs => if c = sep then [] :: r :: rs else (c :: r) :: rs

/-- `info.split("\n")[0]`: the first field of a Python split on newline. -/
def firstLine (s : String) : String :=
  ⟨(splitOnChar '\n' s.data).headD []⟩

/-- The all-zero sentinel `"0" * 40` used by the git update-hook
convention for a previously non-existent ref. -/
def zeros40 : String :=
  ⟨List.replicate 40 '0'⟩

/-- Session state of `GitAccessObject` (telekommie/git.py).  `ambient`
models `os.environ` at copy time, `env` the lazily materialized overlay
(`None` until the first `setEnv`).  `oracle` models the external git
tool: the raw standard output produced for a given argument vector.  The
`FakeGitAccessObject` test double corresponds to a constant oracle. -/
structure GitAccessObject where
  ambient : String → Option String
  env : Option (String → Option String)
  oracle : List String → String

/-- `GitAccessObject.setEnv`: on first call copy the ambient environment
into the overlay, then bind `key` to `value`. -/
def GitAccessObject.setEnv (g : GitAccessObject) (key value : String) :
    GitAccessObject :=
  let base : String → Option String :=
    match g.env with
    | some e => e
    | none => g.ambient
  { g with env := some (fun k => if k = key then some value else base k) }

/-- `GitAccessObject.access`: run the command and return its standard
output stripped.  (In the source the pre-`communicate` returncode test is
vacuous — `returncode` is still `None` there — so this method has no
failure branch; the response is always the stripped capture.) -/
def GitAccessObject.access (g : GitAccessObject) (command : List String) :
    String :=
  pyStrip (g.oracle command)

/-- The environment a spawned command would effectively see: the overlay
when materialized, the ambient environment otherwise. -/
def GitAccessObject.effEnv (g : GitAccessObject) (key : String) :
    Option String :=
  match g.env with
  | some e => e key
  | none => g.ambient key

/-- Run a sequence of commands through one session, returning the session
subsequent work continues with and the captured responses.  `access`
does not rebind the session, so the session passes through unchanged. -/
def GitAccessObject.execList (g : GitAccessObject) :
    List (List String) → GitAccessObject × List String
  | [] => (g, [])
  | c :: cs =>
    let r := g.access c
    let p := GitAccessObject.execList g cs
    (p.1, r :: p.2)

/-- Argument vector of `GitRef.hash`: `["git", "show-ref", "-s", refName]`. -/
def showRefCmd (refName : String) : List String :=
  ["git", "show-ref", "-s", refName]

/-- Argument vector of `GitCommit.committerName`:
`["git", "show", "--pretty=format:%cn", hash]`. -/
def showCommitCmd (hash : String) : List String :=
  ["git", "show", "--pretty=format:%cn", hash]

/-- Argument vector of `GitCommit.pathExists`:
`["git", "ls-tree", "--name-only", hash, path]`. -/
def lsTreeCmd (hash path : String) : List String :=
  ["git", "ls-tree", "--name-only", hash, path]

/-- `GitRef.isBranch`: `"refs/heads/" == self.refName[:11]`. -/
def GitRef.isBranch (refName : String) : Bool :=
  "refs/heads/" == strTake refName 11

/-- `GitRef.isMaster`: `"refs/heads/master" == self.refName`. -/
def GitRef.isMaster (refName : String) : Bool :=
  "refs/heads/master" == refName

/-- `GitRef.hash`: resolve the ref name to an object name via
`git show-ref -s`. -/
def GitRef.hash (g : GitAccessObject) (refName : String) : String :=
  g.access (showRefCmd refName)

/-- `GitCommit.committerName`: first line of the output of
`git show --pretty=format:%cn <hash>`. -/
def GitCommit.committerName (g : GitAccessObject) (hash : String) : String :=
  firstLine (g.access (showCommitCmd hash))

/-- `GitCommit.pathExists`: the stripped output of
`git ls-tree --name-only <hash> <path>` must equal `path`. -/
def GitCommit.pathExists (g : GitAccessObject) (hash path : String) : Bool :=
  let pathTest := g.access (lsTreeCmd hash path)
  pathTest == path

/-- `GitCommit.tag`: set `EDITOR` to the empty string on the session,
then run `git tag <tagName> <hash>`; the response is discarded and the
(mutated) session is the result. -/
def GitCommit.tag (g : GitAccessObject) (hash tagName : String) :
    GitAccessObject :=
  let g1 := g.setEnv "EDITOR" ""
  let _ := g1.access ["git", "tag", tagName, hash]
  g1

/-- The failure kinds declared under `Hooks.Errors` (telekommie/hooks.py). -/
inductive HooksError where
  | RefDisallowed (refName : String)
  | CommitterMismatch (committerName : String)
  | TaggingFailed (refName tagName : String)
  deriving DecidableEq

/-- `Hooks.update` (telekommie/hooks.py), with the trace of argument
vectors it issues through the session.  Mirrors the source line by line:
the ref gate raises `RefDisallowed` before any command runs; the head is
resolved (`git show-ref`) unconditionally after the gate; when `oldHash`
is not the all-zero sentinel, `haveMatchingCommitterNames` fetches the
update commit's name, then the head commit's name, and raises
`CommitterMismatch` with the update's name when they differ. -/
def Hooks.update (g : GitAccessObject) (refName oldHash newHash : String) :
    Except HooksError Unit × List (List String) :=
  if GitRef.isMaster refName || !(GitRef.isBranch refName) then
    (Except.error (HooksError.RefDisallowed refName), [])
  else
    let headHash := GitRef.hash g refName
    if oldHash ≠ zeros40 then
      let updateCommitter := GitCommit.committerName g newHash
      let headCommitter := GitCommit.committerName g headHash
      (if headCommitter ≠ updateCommitter then
          Except.error (HooksError.CommitterMismatch updateCommitter)
        else Except.ok (),
        [showRefCmd refName, showCommitCmd newHash, showCommitCmd headHash])
    else
      (Except.ok (), [showRefCmd refName])

/-- A session whose oracle answers every command with the same string:
the model of `FakeGitAccessObject` with `setAccessResponse out`. -/
def constSession (out : String) : GitAccessObject :=
  { ambient := fun _ => none, env := none, oracle := fun _ => out }

-- Characterization lemmas for the ref classifiers.

theorem string_mk_eq_iff (l : List Char) (s : String) :
    (⟨l⟩ : String) = s ↔ l = s.data := by
  constructor
  · intro h
    exact congrArg String.data h
  · intro h
    cases s
    exact congrArg String.mk h

theorem isBranch_iff (refName : String) :
    GitRef.isBranch refName = true ↔ "refs/heads/".data <+: refName.data := by
  unfold GitRef.isBranch strTake
  rw [beq_iff_eq, eq_comm, string_mk_eq_iff, List.prefix_iff_eq_take]
  have hlen : "refs/heads/".data.length = 11 := by decide
  rw [hlen]
  exact eq_comm

theorem isMaster_iff (refName : String) :
    GitRef.isMaster refName = true ↔ refName = "refs/heads/master" := by
  unfold GitRef.isMaster
  rw [beq_iff_eq, eq_comm]

/-- C5: `isBranch` is exactly the case-sensitive `refs/heads/` prefix
test on the ref name; in particular the shorthand `heads/foo` is not a
branch. -/
theorem isBranch_prefix_spec :
    (∀ refName : String,
        GitRef.isBranch refName = true ↔ "refs/heads/".data <+: refName.data)
      ∧ GitRef.isBranch "heads/foo" = false := by
  refine ⟨isBranch_iff, ?_⟩
  decide

/-- C7: `isMaster` holds exactly for the name `refs/heads/master`; in
particular `refs/heads/masterx` and `refs/head/master` are rejected. -/
theorem isMaster_exact_spec :
    (∀ refName : String,
        GitRef.isMaster refName = true ↔ refName = "refs/heads/master")
      ∧ GitRef.isMaster "refs/heads/masterx" = false
      ∧ GitRef.isMaster "refs/head/master" = false := by
  refine ⟨isMaster_iff, ?_, ?_⟩ <;> decide

theorem gate_iff (refName : String) :
    (GitRef.isMaster refName || !(GitRef.isBranch refName)) = true
      ↔ (refName = "refs/heads/master"
          ∨ ¬ ("refs/heads/".data <+: refName.data)) := by
  rw [← isMaster_iff, ← isBranch_iff]
  cases GitRef.isMaster refName <;> cases GitRef.isBranch refName <;> simp

/-- C1: `Hooks.update` raises `RefDisallowed` carrying the pushed ref
name exactly when the ref is the master branch or not a branch at all;
in particular `refs/tags/init` is always rejected, and
`refs/heads/master` is rejected even though it is a branch. -/
theorem update_refDisallowed_iff :
    (∀ (g : GitAccessObject) (refName oldHash newHash r' : String),
        (Hooks.update g refName oldHash newHash).1
            = Except.error (HooksError.RefDisallowed r')
          ↔ (r' = refName
              ∧ (refName = "refs/heads/master"
                  ∨ ¬ ("refs/heads/".data <+: refName.data))))
      ∧ (∀ (g : GitAccessObject) (oldHash newHash : String),
          (Hooks.update g "refs/tags/init" oldHash newHash).1
            = Except.error (HooksError.RefDisallowed "refs/tags/init"))
      ∧ (∀ (g : GitAccessObject) (oldHash newHash : String),
          (Hooks.update g "refs/heads/master" oldHash newHash).1
            = Except.error (HooksError.RefDisallowed "refs/heads/master")) := by
  have main : ∀ (g : GitAccessObject) (refName oldHash newHash r' : String),
      (Hooks.update g refName oldHash newHash).1
          = Except.error (HooksError.RefDisallowed r')
        ↔ (r' = refName
            ∧ (refName = "refs/heads/master"
                ∨ ¬ ("refs/heads/".data <+: refName.data))) := by
    intro g refName oldHash newHash r'
    rw [← gate_iff refName]
    by_cases hgate : (GitRef.isMaster refName || !(GitRef.isBranch refName)) = true
    · simp [Hooks.update, hgate, eq_comm]
    · by_cases ho : oldHash = zeros40
      · simp [Hooks.update, hgate, ho]
      · by_cases hc : GitCommit.committerName g (GitRef.hash g refName)
            ≠ GitCommit.committerName g newHash
        · simp [Hooks.update, hgate, ho, hc]
        · simp [Hooks.update, hgate, ho, hc]
  refine ⟨main, ?_, ?_⟩
  · intro g oldHash newHash
    exact (main g "refs/tags/init" oldHash newHash "refs/tags/init").mpr
      ⟨rfl, Or.inr (by decide)⟩
  · intro g oldHash newHash
    exact (main g "refs/heads/master" oldHash newHash "refs/heads/master").mpr
      ⟨rfl, Or.inl rfl⟩

/-- C2: on a non-master branch ref, when `oldHash` is the all-zero
sentinel, `Hooks.update` accepts and the only command it issues is the
`git show-ref` head resolution: no committer name is ever fetched. -/
theorem update_newBranch_spec (g : GitAccessObject)
    (refName oldHash newHash : String)
    (hb : GitRef.isBranch refName = true)
    (hm : GitRef.isMaster refName = false)
    (ho : oldHash = zeros40) :
    (Hooks.update g refName oldHash newHash).1 = Except.ok ()
      ∧ (Hooks.update g refName oldHash newHash).2 = [showRefCmd refName]
      ∧ ∀ h : String,
          showCommitCmd h ∉ (Hooks.update g refName oldHash newHash).2 := by
  have hgate : (GitRef.isMaster refName || !(GitRef.isBranch refName)) = false := by
    rw [hb, hm]
    rfl
  refine ⟨?_, ?_, ?_⟩
  · simp [Hooks.update, hgate, ho]
  · simp [Hooks.update, hgate, ho]
  · intro h
    simp [Hooks.update, hgate, ho, showCommitCmd, showRefCmd]

def fHash : String := "FFFFFFFFFFFFFFFFFFFFFFFFFFFFFFFFFFFFFFFF"

def aHash : String := "AAAAAAAAAAAAAAAAAAAAAAAAAAAAAAAAAAAAAAAA"

theorem update_newBranch_witness :
    GitRef.isBranch "refs/heads/newbranch" = true
      ∧ GitRef.isMaster "refs/heads/newbranch" = false
      ∧ (Hooks.update (constSession "Dmytri Kleiner") "refs/heads/newbranch"
            zeros40 fHash).1 = Except.ok ()
      ∧ (Hooks.update (constSession "Dmytri Kleiner") "refs/heads/newbranch"
            zeros40 fHash).2 = [showRefCmd "refs/heads/newbranch"] :=
  ⟨by decide, by decide,
    (update_newBranch_spec (constSession "Dmytri Kleiner")
      "refs/heads/newbranch" zeros40 fHash (by decide) (by decide) rfl).1,
    (update_newBranch_spec (constSession "Dmytri Kleiner")
      "refs/heads/newbranch" zeros40 fHash (by decide) (by decide) rfl).2.1⟩

/-- C3: on an existing (non-sentinel `oldHash`) non-master branch,
`Hooks.update` raises `CommitterMismatch` carrying the update commit's
committer name exactly when the head and update committer names differ
as strings, and accepts when they are equal. -/
theorem update_committerMismatch_spec (g : GitAccessObject)
    (refName oldHash newHash : String)
    (hb : GitRef.isBranch refName = true)
    (hm : GitRef.isMaster refName = false)
    (ho : oldHash ≠ zeros40) :
    (GitCommit.committerName g (GitRef.hash g refName)
          ≠ GitCommit.committerName g newHash →
        (Hooks.update g refName oldHash newHash).1
          = Except.error (HooksError.CommitterMismatch
              (GitCommit.committerName g newHash)))
      ∧ (GitCommit.committerName g (GitRef.hash g refName)
            = GitCommit.committerName g newHash →
          (Hooks.update g refName oldHash newHash).1 = Except.ok ()) := by
  have hgate : (GitRef.isMaster refName || !(GitRef.isBranch refName)) = false := by
    rw [hb, hm]
    rfl
  constructor
  · intro hne
    simp [Hooks.update, hgate, ho, hne]
  · intro heq
    simp [Hooks.update, hgate, ho, heq]

/-- Session double for the committer-mismatch scenario: the update
commit reports committer `Dmytri Kleiner`, every other query (head
resolution and the head commit's metadata) reports `Monty Cantsin`. -/
def mismatchSession : GitAccessObject :=
  { ambient := fun _ => none, env := none,
    oracle := fun c =>
      if c = showCommitCmd fHash then "Dmytri Kleiner" else "Monty Cantsin" }

theorem update_committerMismatch_witness :
    GitRef.isBranch "refs/heads/existing" = true
      ∧ GitRef.isMaster "refs/heads/existing" = false
      ∧ aHash ≠ zeros40
      ∧ (Hooks.update mismatchSession "refs/heads/existing" aHash fHash).1
          = Except.error (HooksError.CommitterMismatch "Dmytri Kleiner") := by
  refine ⟨by decide, by decide, by decide, ?_⟩
  have hres := (update_committerMismatch_spec mismatchSession
    "refs/heads/existing" aHash fHash (by decide) (by decide) (by decide)).1
    (by decide)
  have hname : GitCommit.committerName mismatchSession fHash
      = "Dmytri Kleiner" := by decide
  rw [hname] at hres
  exact hres

/-- C8: the declared `TaggingFailed` failure kind is unreachable: no
execution of the update policy produces it, and the labeling operation
(`GitCommit.tag`) merely mutates the session environment and runs the
tag command — it has no failure result of its own at all. -/
theorem taggingFailed_unreachable :
    (∀ (g : GitAccessObject) (refName oldHash newHash rn tn : String),
        (Hooks.update g refName oldHash newHash).1
          ≠ Except.error (HooksError.TaggingFailed rn tn))
      ∧ ∀ (g : GitAccessObject) (hash tagName : String),
          GitCommit.tag g hash tagName = g.setEnv "EDITOR" "" := by
  constructor
  · intro g refName oldHash newHash rn tn
    by_cases hgate : (GitRef.isMaster refName || !(GitRef.isBranch refName)) = true
    · simp [Hooks.update, hgate]
    · by_cases ho : oldHash = zeros40
      · simp [Hooks.update, hgate, ho]
      · by_cases hc : GitCommit.committerName g (GitRef.hash g refName)
            ≠ GitCommit.committerName g newHash
        · simp [Hooks.update, hgate, ho, hc]
        · simp [Hooks.update, hgate, ho, hc]
  · intro g hash tagName
    rfl

/-- C6: `pathExists` succeeds exactly when the (stripped) response of
the `ls-tree` invocation equals the queried path as a whole string;
responses `dir/p` and `p2` for query `p` both fail. -/
theorem pathExists_exact_spec :
    (∀ (g : GitAccessObject) (hash path : String),
        GitCommit.pathExists g hash path = true
          ↔ g.access (lsTreeCmd hash path) = path)
      ∧ (∀ hash : String,
          GitCommit.pathExists (constSession "dir/p") hash "p" = false)
      ∧ (∀ hash : String,
          GitCommit.pathExists (constSession "p2") hash "p" = false) := by
  refine ⟨?_, ?_, ?_⟩
  · intro g hash path
    simp [GitCommit.pathExists]
  · intro hash
    rfl
  · intro hash
    rfl

theorem splitOnChar_ne_nil (sep : Char) (l : List Char) :
    splitOnChar sep l ≠ [] := by
  cases l with
  | nil => simp [splitOnChar]
  | cons c cs =>
    rw [splitOnChar]
    cases hr : splitOnChar sep cs with
    | nil => simp
    | cons r rs => by_cases hc : c = sep <;> simp [hc]

theorem splitOnChar_headD (sep : Char) (l : List Char) :
    (splitOnChar sep l).headD [] = l.takeWhile (fun c => !(c == sep)) := by
  induction l with
  | nil => rfl
  | cons c cs ih =>
    rw [splitOnChar]
    cases hr : splitOnChar sep cs with
    | nil => exact absurd hr (splitOnChar_ne_nil sep cs)
    | cons r rs =>
      rw [hr] at ih
      by_cases hc : c = sep
      · simp [hc, List.takeWhile]
      · have hb : (c == sep) = false := by simp [hc]
        simp only [List.headD_cons] at ih
        simp [hc, List.takeWhile, hb, ih]

/-- C9: `committerName` returns the prefix of the (stripped) show-command
response up to the first newline; an empty response yields the empty
name without any failure. -/
theorem committerName_firstLine_spec :
    (∀ (g : GitAccessObject) (hash : String),
        GitCommit.committerName g hash
          = ⟨(g.access (showCommitCmd hash)).data.takeWhile
              (fun c => !(c == '\n'))⟩)
      ∧ ∀ hash : String, GitCommit.committerName (constSession "") hash = "" := by
  constructor
  · intro g hash
    unfold GitCommit.committerName firstLine
    exact congrArg String.mk (splitOnChar_headD '\n' _)
  · intro hash
    rfl

/-- C10: after `GitCommit.tag`, the session's environment overlay is
materialized, binds `EDITOR` to the empty string, and agrees with the
pre-state's effective environment on every other key; running any
further command sequence through the session leaves it (and hence the
binding) unchanged. -/
theorem tag_env_spec (g : GitAccessObject) (hash tagName : String) :
    ((GitCommit.tag g hash tagName).env).isSome = true
      ∧ (GitCommit.tag g hash tagName).effEnv "EDITOR" = some ""
      ∧ (∀ k : String, k ≠ "EDITOR" →
          (GitCommit.tag g hash tagName).effEnv k = g.effEnv k)
      ∧ ∀ cmds : List (List String),
          (GitAccessObject.execList (GitCommit.tag g hash tagName) cmds).1
            = GitCommit.tag g hash tagName := by
  refine ⟨?_, ?_, ?_, ?_⟩
  · rfl
  · simp [GitCommit.tag, GitAccessObject.setEnv, GitAccessObject.effEnv]
  · intro k hk
    cases henv : g.env with
    | none =>
      simp [GitCommit.tag, GitAccessObject.setEnv, GitAccessObject.effEnv,
        henv, hk]
    | some e =>
      simp [GitCommit.tag, GitAccessObject.setEnv, GitAccessObject.effEnv,
        henv, hk]
  · intro cmds
    induction cmds with
    | nil => rfl
    | cons c cs ih => simpa [GitAccessObject.execList] using ih

theorem tag_env_witness :
    (GitCommit.tag (constSession "") aHash "testTag").effEnv "EDITOR" = some ""
      ∧ (GitCommit.tag (constSession "") aHash "testTag").effEnv "GIT_DIR"
          = (constSession "").effEnv "GIT_DIR" :=
  ⟨(tag_env_spec (constSession "") aHash "testTag").2.1,
    (tag_env_spec (constSession "") aHash "testTag").2.2.1 "GIT_DIR" (by decide)⟩

-- Shell/Process access (telekommie/shell.py).

/-- Result of spawning a process for `ShellAccessObject`: the captured
standard output (stderr was merged into it by the redirect) and the exit
status observed after `communicate`. -/
structure ProcResult where
  out : String
  code : Int
  deriving DecidableEq

/-- The failure kind declared under `ShellAccessObject.Errors`.  The
`err` field models the value passed for the process's stderr attribute
(an `Option`, since stderr is not separately piped). -/
inductive ShellError where
  | CommandFailed (command : List String) (err : Option String) (code : Int)
  deriving DecidableEq

/-- Session state of `ShellAccessObject`: environment overlay plus the
model of the external process as a map from argument vector to its
`ProcResult`. -/
structure ShellAccessObject where
  ambient : String → Option String
  env : Option (String → Option String)
  spawn : List String → ProcResult

/-- `ShellAccessObject.access`: spawn with stderr merged into stdout,
strip the capture, then raise `CommandFailed` when the exit status is
non-zero (Python truthiness of the returncode).  The `err` field
receives the process object's stderr attribute, which is `None` here
because stderr was redirected into stdout rather than piped. -/
def ShellAccessObject.access (s : ShellAccessObject) (command : List String) :
    Except ShellError String :=
  let sub := s.spawn command
  let response := pyStrip sub.out
  if sub.code ≠ 0 then
    Except.error (ShellError.CommandFailed command none sub.code)
  else
    Except.ok response

/-- Modelled from the claim's words, for comparison only: trimming just
the TRAILING whitespace/newline of a capture.  The source's `strip()`
removes leading whitespace as well. -/
def trailingTrimmed (s : String) : String :=
  ⟨(s.data.reverse.dropWhile pyIsSpace).reverse⟩

/-- Truth value Python assigns to a process returncode attribute:
`None` (process not yet waited on) and `0` are falsy, every other
integer truthy. -/
def pyTruthy : Option Int → Bool
  | none => false
  | some n => n != 0

/-- `GitAccessObject.access` of telekommie/git.py (and src/git.py) over
the same explicit process model as the shell variant.  There the
returncode test precedes `communicate`, when the returncode attribute
is still `None` — falsy — so the raise branch is dead (in the source it
would even name a nonexistent `CommandError` attribute) and the
stripped capture is returned whatever the eventual exit status. -/
def gitAccess (spawn : List String → ProcResult) (command : List String) :
    Except ShellError String :=
  let sub := spawn command
  let preReturncode : Option Int := none
  if pyTruthy preReturncode then
    Except.error (ShellError.CommandFailed command none 0)
  else
    Except.ok (pyStrip sub.out)

/-- A shell session whose process exits 0 with output `" X"` (leading
space): distinguishes full stripping from trailing-only trimming. -/
def leadingSpaceShell : ShellAccessObject :=
  { ambient := fun _ => none, env := none,
    spawn := fun _ => { out := " X", code := 0 } }

/-- A process that exits 1 with a nonempty merged capture. -/
def noisyFailSpawn : List String → ProcResult :=
  fun _ => { out := "boom", code := 1 }

/-- The shell session over `noisyFailSpawn`. -/
def noisyFailShell : ShellAccessObject :=
  { ambient := fun _ => none, env := none, spawn := noisyFailSpawn }

/-- C4 counterexample, refuting the claim as stated at concrete inputs:
(i) on a zero-status process whose output carries a leading space, the
shell `access` does not return the output with only trailing whitespace
trimmed — it strips the leading space too; (ii) on a non-zero exit with
a nonempty merged capture the raised condition carries `none` in its
error-text field, never any captured text; (iii) the
`GitAccessObject.access` variant raises nothing at all on the same
failing process and returns the stripped capture. -/
theorem access_claim_counterexample :
    (ShellAccessObject.access leadingSpaceShell ["echo", " X"]
          = Except.ok "X"
      ∧ trailingTrimmed ((leadingSpaceShell.spawn ["echo", " X"]).out)
          = " X"
      ∧ ShellAccessObject.access leadingSpaceShell ["echo", " X"]
          ≠ Except.ok (trailingTrimmed
              ((leadingSpaceShell.spawn ["echo", " X"]).out)))
      ∧ ((noisyFailShell.spawn ["sh"]).code = 1
        ∧ (noisyFailShell.spawn ["sh"]).out = "boom"
        ∧ ShellAccessObject.access noisyFailShell ["sh"]
            = Except.error (ShellError.CommandFailed ["sh"] none 1)
        ∧ ∀ s : String,
            ShellAccessObject.access noisyFailShell ["sh"]
              ≠ Except.error (ShellError.CommandFailed ["sh"] (some s) 1))
      ∧ ((noisyFailSpawn ["sh"]).code ≠ 0
        ∧ gitAccess noisyFailSpawn ["sh"] = Except.ok "boom") := by
  refine ⟨⟨rfl, by decide, ?_⟩, ⟨rfl, rfl, rfl, ?_⟩, ⟨by decide, rfl⟩⟩
  · intro hcontra
    have hok : ShellAccessObject.access leadingSpaceShell ["echo", " X"]
        = Except.ok "X" := rfl
    rw [hok] at hcontra
    have hx : ("X" : String) = trailingTrimmed
        ((leadingSpaceShell.spawn ["echo", " X"]).out) := by
      injection hcontra
    exact absurd hx (by decide)
  · intro s hcontra
    have herr : ShellAccessObject.access noisyFailShell ["sh"]
        = Except.error (ShellError.CommandFailed ["sh"] none 1) := rfl
    rw [herr] at hcontra
    simp at hcontra

/-- C4 amended: the shell variant (`ShellAccessObject.access`) fails
with `CommandFailed` exactly when the process exits non-zero, carrying
the invoked argv and the exit code while its error-text field receives
the unpiped stderr attribute (`none`, since stderr is merged into
stdout) rather than any captured text; on a zero exit it returns the
capture stripped of leading and trailing whitespace.  The
`GitAccessObject.access` variants never raise `CommandFailed` at all —
their returncode test precedes `communicate` and is vacuously false —
and return the stripped capture regardless of the exit status. -/
theorem access_commandFailed_spec :
    (∀ (s : ShellAccessObject) (command : List String) (e : ShellError),
        s.access command = Except.error e
          ↔ ((s.spawn command).code ≠ 0
              ∧ e = ShellError.CommandFailed command none
                  (s.spawn command).code))
      ∧ (∀ (s : ShellAccessObject) (command : List String),
          (s.spawn command).code = 0 →
            s.access command = Except.ok (pyStrip (s.spawn command).out))
      ∧ (∀ (spawn : List String → ProcResult) (command : List String),
          gitAccess spawn command
            = Except.ok (pyStrip (spawn command).out)) := by
  refine ⟨?_, ?_, ?_⟩
  · intro s command e
    by_cases hc : (s.spawn command).code ≠ 0
    · simp [ShellAccessObject.access, hc, eq_comm]
    · simp [ShellAccessObject.access, hc]
  · intro s command hc
    simp [ShellAccessObject.access, hc]
  · intro spawn command
    rfl

/-- A shell session whose process exits 1 with empty output. -/
def failingShell : ShellAccessObject :=
  { ambient := fun _ => none, env := none,
    spawn := fun _ => { out := "", code := 1 } }

theorem access_commandFailed_witness :
    ((failingShell.spawn ["false"]).code ≠ 0
        ∧ ShellAccessObject.access failingShell ["false"]
            = Except.error (ShellError.CommandFailed ["false"] none 1))
      ∧ ((leadingSpaceShell.spawn ["echo", " X"]).code = 0
        ∧ ShellAccessObject.access leadingSpaceShell ["echo", " X"]
            = Except.ok "X")
      ∧ gitAccess noisyFailSpawn ["sh"] = Except.ok "boom" :=
  ⟨⟨by decide,
      (access_commandFailed_spec.1 failingShell ["false"]
        (ShellError.CommandFailed ["false"] none 1)).mpr ⟨by decide, rfl⟩⟩,
    ⟨rfl,
      access_commandFailed_spec.2.1 leadingSpaceShell ["echo", " X"] rfl⟩,
    access_commandFailed_spec.2.2 noisyFailSpawn ["sh"]⟩
